import Mathlib

/-!
Verification development for the video-chat backend: a FastAPI WebSocket
server (`main.py`) wrapping the Gemini live SDK in a per-connection session
object (`gemini_client.py`).  The Python code is shallowly embedded: the
session object's mutable fields become a `ChatState` record, the asyncio
queues become lists, SDK and WebSocket interactions become explicit effect
lists, and third-party codecs (cv2/PIL JPEG handling) are parameters of the
embedding.
-/

namespace VideoChat

/-! ## Bytes and base64 (Python `base64.b64encode` / `b64decode`) -/

/-- The standard base64 alphabet used by `base64.b64encode`. -/
def b64alphabet : List Char :=
  "ABCDEFGHIJKLMNOPQRSTUVWXYZabcdefghijklmnopqrstuvwxyz0123456789+/".toList

def b64char (n : Nat) : Char := b64alphabet.getD n 'A'

/-- `base64.b64encode(bs).decode()`: encode a byte list as a base64 string. -/
def b64encode : List Nat → String
  | [] => ""
  | [a] => String.mk [b64char (a / 4), b64char (a % 4 * 16), '=', '=']
  | [a, b] => String.mk [b64char (a / 4), b64char (a % 4 * 16 + b / 16), b64char (b % 16 * 4), '=']
  | a :: b :: c :: rest =>
      String.mk [b64char (a / 4), b64char (a % 4 * 16 + b / 16),
                 b64char (b % 16 * 4 + c / 64), b64char (c % 64)] ++ b64encode rest

/-- Index of a character in the base64 alphabet, `none` if absent. -/
def b64charVal (c : Char) : Option Nat :=
  let i := b64alphabet.indexOf c
  if i < 64 then some i else none

/-- Decode groups of four base64 characters; `none` models `binascii.Error`. -/
def b64decodeChunks : List Char → Option (List Nat)
  | [] => some []
  | [a, b, '=', '='] => do
      let x ← b64charVal a
      let y ← b64charVal b
      pure [x * 4 + y / 16]
  | [a, b, c, '='] => do
      let x ← b64charVal a
      let y ← b64charVal b
      let z ← b64charVal c
      pure [x * 4 + y / 16, y % 16 * 16 + z / 4]
  | a :: b :: c :: d :: rest => do
      let x ← b64charVal a
      let y ← b64charVal b
      let z ← b64charVal c
      let w ← b64charVal d
      let tail ← b64decodeChunks rest
      pure ([x * 4 + y / 16, y % 16 * 16 + z / 4, z % 4 * 64 + w] ++ tail)
  | _ => none

/-- `base64.b64decode`: `none` models the `binascii.Error` exception path. -/
def b64decode (s : String) : Option (List Nat) := b64decodeChunks s.toList

/-! ## Outbound media messages and the bounded out-queue

`gemini_client.py` enqueues dicts `{"mime_type": ..., "data": ...}` where the
data is a base64 string for video frames and raw PCM bytes for audio. -/

inductive MsgData
  | bytes (bs : List Nat)
  | str (s : String)
  deriving DecidableEq, Repr

structure OutMsg where
  mime_type : String
  data : MsgData
  deriving DecidableEq, Repr

/-- `asyncio.Queue(maxsize=5)` as created in `start_session`. -/
def OUT_QUEUE_MAXSIZE : Nat := 5

/-- `out_queue.put_nowait(m)`: `none` models the raised `asyncio.QueueFull`. -/
def putNowait (q : List OutMsg) (m : OutMsg) : Option (List OutMsg) :=
  if q.length < OUT_QUEUE_MAXSIZE then some (q ++ [m]) else none

/-! ## SDK responses and the extraction done by `_listen_responses` -/

/-- The attributes of a response object from `session.receive()` that the
listener inspects.  `none` covers both a missing attribute and a falsy value
being absent; a present-but-falsy value (empty string / empty bytes) is
`some ""` / `some []` and is filtered by the truthiness helpers below. -/
structure SDKResponse where
  text : Option String
  data : Option (List Nat)
  output_transcription : Option String
  input_transcription : Option String
  deriving DecidableEq, Repr

/-- Python truthiness for an optional string (`if x and ...`). -/
def truthyStr : Option String → Option String
  | some s => if s = "" then none else some s
  | none => none

/-- Python truthiness for optional bytes. -/
def truthyBytes : Option (List Nat) → Option (List Nat)
  | some bs => if bs = [] then none else some bs
  | none => none

/-- The `response_data` dict built by `_listen_responses`. -/
structure RespData where
  text : Option String
  audio : Option String
  transcription : Option String
  user_transcription : Option String
  deriving DecidableEq, Repr

/-- Lines 90-110 of `gemini_client.py`: build `response_data` from a response. -/
def extractResponse (r : SDKResponse) : RespData :=
  { text := truthyStr r.text
    audio := (truthyBytes r.data).map b64encode
    transcription := truthyStr r.output_transcription
    user_transcription := truthyStr r.input_transcription }

/-- `if response_data:` — Python truthiness of the dict (nonempty). -/
def RespData.nonempty (d : RespData) : Bool :=
  d.text.isSome || d.audio.isSome || d.transcription.isSome || d.user_transcription.isSome

/-! ## Session state of a `GeminiVideoChat` object -/

/-- The mutable fields of `GeminiVideoChat` that the claims are about.
`session` is the vendor live-session handle (identified by a number),
`out_queue` is `None` before `start_session` creates it, and
`response_queue` is created unbounded in `__init__`. -/
structure ChatState where
  session : Option Nat
  is_active : Bool
  out_queue : Option (List OutMsg)
  response_queue : List RespData
  deriving DecidableEq, Repr

/-- State after `__init__`: no session, inactive, `out_queue = None`,
`response_queue = asyncio.Queue()` (empty, no maxsize). -/
def initState : ChatState :=
  { session := none, is_active := false, out_queue := none, response_queue := [] }

/-- Observable interactions with the vendor SDK and the event loop. -/
inductive Effect
  | connect (sid : Nat)
  | sessionSendMedia (m : OutMsg)
  | sessionSendText (t : String) (end_of_turn : Bool)
  | sleepMs (ms : Nat)
  deriving DecidableEq, Repr

/-- `start_session` (success path): enter the live-connect context manager,
set `is_active`, create `out_queue = asyncio.Queue(maxsize=5)`. -/
def start_session (st : ChatState) (sid : Nat) : ChatState × List Effect :=
  ({ st with session := some sid, is_active := true, out_queue := some [] },
   [Effect.connect sid])

/-! ## The three wrapper send functions -/

/-- Abstract image: dimensions plus pixel rows in channel triples. -/
structure Image where
  width : Nat
  height : Nat
  pixels : List (Nat × Nat × Nat)
  deriving DecidableEq, Repr

/-- `cv2.cvtColor(frame, cv2.COLOR_BGR2RGB)`: swap first and third channel. -/
def cvtColorBGR2RGB (img : Image) : Image :=
  { img with pixels := img.pixels.map (fun p => (p.2.2, p.2.1, p.1)) }

/-- Third-party codec operations the pipeline calls but whose byte-level
behaviour is outside this repository: JPEG decode (`cv2.imdecode`, `none`
models a failed decode returning `None`), pixel resampling done by
`PIL.Image.resize`, and JPEG encode (`img.save(io, format="jpeg")`). -/
structure ImageCodec where
  imdecode : List Nat → Option Image
  resample : Image → Nat → Nat → List (Nat × Nat × Nat)
  jpegEncode : Image → List Nat

/-- PIL `round_aspect`: choose between floor and ceiling of `a / b` by the
key function (Python `min` keeps the first argument, the floor, on ties),
then clamp below by 1. -/
def roundAspect (a b : Nat) (key : Nat → Nat) : Nat :=
  let f := a / b
  let c := (a + b - 1) / b
  max (if key f ≤ key c then f else c) 1

/-- Dimensions computed by `img.thumbnail([1024, 1024])` (PIL): no change when
the image already fits, otherwise shrink preserving aspect ratio.  The float
expressions of PIL are carried out exactly: `x / y >= aspect` with
`x = y = 1024` is `h ≥ w`, and the rounding keys compare cross-multiplied
absolute errors. -/
def thumbnailDims (w h : Nat) : Nat × Nat :=
  if w ≤ 1024 ∧ h ≤ 1024 then (w, h)
  else if w ≤ h then
    (roundAspect (1024 * w) h (fun n => ((1024 * w : Int) - n * h).natAbs), 1024)
  else
    (1024, roundAspect (1024 * h) w
      (fun n => if n = 0 then 0 else ((w * n : Int) - 1024 * h).natAbs))

/-- `img.resize(size)`: an image of exactly the requested size whose pixel
content is produced by the library's resampling. -/
def pilResize (c : ImageCodec) (img : Image) (w h : Nat) : Image :=
  ⟨w, h, c.resample img w h⟩

/-- `img.thumbnail([1024, 1024])`: in-place resize to `thumbnailDims`,
a no-op when the size is unchanged. -/
def pilThumbnail (c : ImageCodec) (img : Image) : Image :=
  let s := thumbnailDims img.width img.height
  if s.1 = img.width ∧ s.2 = img.height then img else pilResize c img s.1 s.2

/-- The `try put_nowait / except QueueFull: skip` block shared verbatim by
`send_video_frame` and `send_audio_data`: when the queue is still `None`
the attribute access raises, caught by the enclosing `except`; a full queue
drops the message. -/
def enqueueOut (st : ChatState) (m : OutMsg) : ChatState :=
  match st.out_queue with
  | none => st
  | some q =>
    match putNowait q m with
    | some q' => { st with out_queue := some q' }
    | none => st

/-- `send_video_frame(frame_data)` (lines 175-221): guard on an active
session, base64-decode, `cv2.imdecode`, BGR→RGB, thumbnail to 1024,
re-encode as JPEG, enqueue `{"mime_type": "image/jpeg", "data": base64}`
with `put_nowait`, dropping the frame when the queue is full.  Every
exception path is caught inside the function, so it always returns; it
never calls `session.send`, hence the empty effect list. -/
def send_video_frame (c : ImageCodec) (st : ChatState) (frame_data : String) :
    ChatState × List Effect :=
  if st.session.isNone ∨ st.is_active = false then (st, [])
  else
    match b64decode frame_data with
    | none => (st, [])
    | some jpeg_bytes =>
      match c.imdecode jpeg_bytes with
      | none => (st, [])
      | some frame =>
        let frame_rgb := cvtColorBGR2RGB frame
        let img := pilThumbnail c frame_rgb
        let image_bytes := c.jpegEncode img
        (enqueueOut st ⟨"image/jpeg", .str (b64encode image_bytes)⟩, [])

/-- `send_audio_data(audio_data)` (lines 223-250) for the string input the
WebSocket path supplies: guard, base64-decode, enqueue
`{"data": bytes, "mime_type": "audio/pcm"}` with `put_nowait`, dropping the
chunk when the queue is full.  All exceptions are caught; no `session.send`. -/
def send_audio_data (st : ChatState) (audio_data : String) :
    ChatState × List Effect :=
  if st.session.isNone ∨ st.is_active = false then (st, [])
  else
    match b64decode audio_data with
    | none => (st, [])
    | some audio_bytes =>
      (enqueueOut st ⟨"audio/pcm", .bytes audio_bytes⟩, [])

/-- `send_text(text)` (lines 252-264): guard, then
`session.send(input=text, end_of_turn=True)`. -/
def send_text (st : ChatState) (text : String) : ChatState × List Effect :=
  if st.session.isNone ∨ st.is_active = false then (st, [])
  else (st, [Effect.sessionSendText text true])

/-! ## Response relay: `_listen_responses` put and `handle_responses` -/

/-- One response processed inside the `async for` of `_listen_responses`
(lines 86-114): if still active, extract the fields; `if response_data:`
append it to `response_queue` (an `await put` on an unbounded queue, which
always succeeds). -/
def listenPut (st : ChatState) (r : SDKResponse) : ChatState :=
  if st.is_active then
    let d := extractResponse r
    if d.nonempty then { st with response_queue := st.response_queue ++ [d] } else st
  else st

/-- Messages the server sends to the web client: one constructor per
`json.dumps` call site in `main.py`. -/
inductive ServerMsg
  | connection_status (status message : String)
  | pong (timestamp : Option String)
  | error (message : String)
  | response (data : RespData)
  deriving DecidableEq, Repr

/-- One step of `get_responses` (lines 266-284): while active, dequeue the
next response (`none` models the 30s timeout with an empty queue, after
which the generator keeps waiting). -/
def getResponseOnce (st : ChatState) : Option (RespData × ChatState) :=
  if st.is_active then
    match st.response_queue with
    | [] => none
    | d :: rest => some (d, { st with response_queue := rest })
  else none

/-- One iteration of `handle_responses` in `main.py` (lines 102-125): wrap the
dequeued item as `{"type": "response", "data": response}` and send it. -/
def handleResponseOnce (st : ChatState) : Option (ServerMsg × ChatState) :=
  match getResponseOnce st with
  | some (d, st') => some (ServerMsg.response d, st')
  | none => none

/-! ## WebSocket message dispatcher (`handle_messages` in `main.py`) -/

/-- The fields of a parsed JSON WebSocket message that the dispatcher reads.
A `none` field models a missing key: subscripting it raises `KeyError`,
which the generic `except Exception` swallows. -/
structure JsonMsg where
  type : Option String
  data : Option String
  text : Option String
  timestamp : Option String
  deriving DecidableEq, Repr

/-- Result of `json.loads` on the received text. -/
inductive ParsedWS
  | invalid
  | obj (m : JsonMsg)
  deriving DecidableEq, Repr

/-- Calls into the `GeminiVideoChat` wrapper made by the dispatcher. -/
inductive WrapperCall
  | video_frame (data : String)
  | audio_data (data : String)
  | text_message (text : String)
  deriving DecidableEq, Repr

/-- What one loop iteration of `handle_messages` does. -/
structure DispatchResult where
  calls : List WrapperCall
  replies : List ServerMsg
  continueLoop : Bool
  deriving DecidableEq, Repr

/-- One iteration of `handle_messages` (lines 58-95): dispatch on
`message["type"]`.  Unknown types fall through with no call and no reply;
`json.JSONDecodeError` replies with an error message; a missing key raises
`KeyError`, caught by the generic handler with no call and no reply.  In
every case the `while True` loop continues. -/
def handleMessage (p : ParsedWS) : DispatchResult :=
  match p with
  | .invalid => ⟨[], [ServerMsg.error "Invalid JSON format"], true⟩
  | .obj m =>
    match m.type with
    | none => ⟨[], [], true⟩
    | some t =>
      if t = "video_frame" then
        match m.data with
        | some d => ⟨[WrapperCall.video_frame d], [], true⟩
        | none => ⟨[], [], true⟩
      else if t = "audio_data" then
        match m.data with
        | some d => ⟨[WrapperCall.audio_data d], [], true⟩
        | none => ⟨[], [], true⟩
      else if t = "text_message" then
        match m.text with
        | some txt => ⟨[WrapperCall.text_message txt], [], true⟩
        | none => ⟨[], [], true⟩
      else if t = "ping" then
        ⟨[], [ServerMsg.pong m.timestamp], true⟩
      else ⟨[], [], true⟩

/-- Run `handle_messages` over a sequence of received messages, stopping when
an iteration does not continue the loop. -/
def runMessages : List ParsedWS → List WrapperCall × List ServerMsg
  | [] => ([], [])
  | p :: rest =>
    let r := handleMessage p
    if r.continueLoop then
      let t := runMessages rest
      (r.calls ++ t.1, r.replies ++ t.2)
    else (r.calls, r.replies)

/-! ## Connection bookkeeping (`active_connections` in `main.py`) -/

structure ConnEntry where
  websocket : Nat
  gemini_client : Nat
  deriving DecidableEq, Repr

/-- `active_connections`, a Python dict keyed by client id. -/
abbrev ConnMap := List (String × ConnEntry)

/-- Dict lookup. -/
def connLookup (d : ConnMap) (k : String) : Option ConnEntry :=
  match d with
  | [] => none
  | p :: rest => if p.1 = k then some p.2 else connLookup rest k

/-- `del d[k]` (on a dict no key repeats; filtering keeps that semantics). -/
def connDel (d : ConnMap) (k : String) : ConnMap :=
  match d with
  | [] => []
  | p :: rest => if p.1 = k then connDel rest k else p :: connDel rest k

/-- `d[k] = v`. -/
def connSet (d : ConnMap) (k : String) (v : ConnEntry) : ConnMap :=
  connDel d k ++ [(k, v)]

/-- `websocket_endpoint` bookkeeping (lines 33-154): on accept the entry
`{"websocket": ws, "gemini_client": gc}` is stored under the client id; the
`finally` block runs cleanup and deletes the entry whatever way the body
ended (normal gather return, `WebSocketDisconnect`, or any exception).
Returns the map while the handler runs and the map after it terminates. -/
def websocketEndpointMaps (conns : ConnMap) (client_id : String) (ws gc : Nat) :
    ConnMap × ConnMap :=
  let during := connSet conns client_id ⟨ws, gc⟩
  let after :=
    if (connLookup during client_id).isSome then connDel during client_id else during
  (during, after)

/-! ## Loop exception handling in `_listen_responses` / `_send_realtime` -/

/-- `pat.isSubstr xs`: some contiguous run of `xs` equals `pat`
(Python `pat in s`). -/
def listContainsSub [DecidableEq α] : List α → List α → Bool
  | _, [] => true
  | [], _ :: _ => false
  | a :: as, p :: ps => ((p :: ps).isPrefixOf (a :: as)) || listContainsSub as (p :: ps)

def strContains (s pat : String) : Bool := listContainsSub s.toList pat.toList

/-- Line 125 / 162: classify `str(e)` as a disconnect. -/
def isDisconnectError (msg : String) : Bool :=
  strContains msg "disconnect message has been received" || strContains msg "ConnectionClosed"

/-- An exception caught by a loop body. -/
inductive LoopExc
  | cancelled
  | sdkError (msg : String)
  deriving DecidableEq, Repr

/-- What an `except` branch does to the loop. -/
structure ExcOutcome where
  newActive : Bool
  breaks : Bool
  effects : List Effect
  deriving DecidableEq, Repr

/-- The `except` branches of `_listen_responses` (lines 120-130):
`CancelledError` breaks; a disconnect error clears `is_active` and breaks;
any other exception sleeps 1 s and retries. -/
def listenExcHandler (active : Bool) (e : LoopExc) : ExcOutcome :=
  match e with
  | .cancelled => ⟨active, true, []⟩
  | .sdkError m =>
    if isDisconnectError m then ⟨false, true, []⟩
    else ⟨active, false, [Effect.sleepMs 1000]⟩

/-- The `except` branches of `_send_realtime` (lines 154-167):
`TimeoutError` is handled separately; `CancelledError` breaks; a disconnect
error clears `is_active` and breaks; any other exception sleeps 0.1 s and
retries. -/
def sendExcHandler (active : Bool) (e : LoopExc) : ExcOutcome :=
  match e with
  | .cancelled => ⟨active, true, []⟩
  | .sdkError m =>
    if isDisconnectError m then ⟨false, true, []⟩
    else ⟨active, false, [Effect.sleepMs 100]⟩

/-! ## The outbound sender loop (`_send_realtime`, lines 138-173) -/

/-- One exception-free iteration of the `while` loop: if active with a
session, get the next queued message (a timeout on an empty queue just
continues) and `session.send(input=msg)`. -/
def sendRealtimeStep (st : ChatState) : ChatState × List Effect :=
  if st.is_active ∧ st.session.isSome then
    match st.out_queue with
    | some (m :: rest) => ({ st with out_queue := some rest }, [Effect.sessionSendMedia m])
    | some [] => (st, [])
    | none => (st, [])
  else (st, [])

/-- Iterate the sender loop `n` times, collecting the sends in order. -/
def sendRealtimeIter : Nat → ChatState → ChatState × List Effect
  | 0, st => (st, [])
  | n + 1, st =>
    let r := sendRealtimeStep st
    let t := sendRealtimeIter n r.1
    (t.1, r.2 ++ t.2)

/-! ## Reachable session states -/

/-- One observable transition of a `GeminiVideoChat` object: the public
methods, one iteration of each internal loop, and cleanup. -/
inductive Step : ChatState → ChatState → Prop
  | start (st : ChatState) (sid : Nat) : Step st (start_session st sid).1
  | video (c : ImageCodec) (st : ChatState) (f : String) :
      Step st (send_video_frame c st f).1
  | audio (st : ChatState) (s : String) : Step st (send_audio_data st s).1
  | text (st : ChatState) (t : String) : Step st (send_text st t).1
  | listen (st : ChatState) (r : SDKResponse) : Step st (listenPut st r)
  | respGet (st st' : ChatState) (d : RespData) :
      getResponseOnce st = some (d, st') → Step st st'
  | sendStep (st : ChatState) : Step st (sendRealtimeStep st).1
  | loopExc (st : ChatState) (o : ExcOutcome) (e : LoopExc) :
      o = listenExcHandler st.is_active e ∨ o = sendExcHandler st.is_active e →
      Step st { st with is_active := o.newActive }
  | cleanup (st : ChatState) :
      Step st { session := none, is_active := false,
                out_queue := st.out_queue.map (fun _ => []), response_queue := [] }

/-- States reachable from a freshly constructed `GeminiVideoChat`. -/
inductive Reachable : ChatState → Prop
  | init : Reachable initState
  | step {s s' : ChatState} : Reachable s → Step s s' → Reachable s'

/-- Number of items in the outbound queue (`0` while it is still `None`). -/
def outLen (st : ChatState) : Nat :=
  match st.out_queue with
  | none => 0
  | some q => q.length

/-! ## Theorems -/

/-- C10: when the session is not started or not active, each of
`send_video_frame`, `send_audio_data` and `send_text` returns normally with
the state unchanged, enqueues nothing, and performs no SDK interaction. -/
theorem sends_noop_when_inactive (c : ImageCodec) (st : ChatState)
    (f a t : String) (h : st.session = none ∨ st.is_active = false) :
    send_video_frame c st f = (st, []) ∧ send_audio_data st a = (st, []) ∧
    send_text st t = (st, []) := by
  rcases h with h | h <;>
    exact ⟨by simp [send_video_frame, h], by simp [send_audio_data, h],
           by simp [send_text, h]⟩

/-- Witness for `sends_noop_when_inactive` at the freshly constructed state. -/
theorem sends_noop_when_inactive_witness :
    send_video_frame ⟨fun _ => none, fun _ _ _ => [], fun _ => []⟩ initState "x" =
      (initState, []) ∧
    send_audio_data initState "y" = (initState, []) ∧
    send_text initState "z" = (initState, []) :=
  sends_noop_when_inactive ⟨fun _ => none, fun _ _ _ => [], fun _ => []⟩
    initState "x" "y" "z" (Or.inl rfl)

/-- C8: with the outbound queue already holding its maximum of 5 items,
`send_video_frame` and `send_audio_data` drop the new item silently: the
state (in particular the queue) is unchanged, no exception escapes (the
functions return a value on every path), and nothing is sent or reported. -/
theorem queue_full_drops_silently (c : ImageCodec) (st : ChatState)
    (f a : String) (sid : Nat) (q : List OutMsg) (hs : st.session = some sid)
    (ha : st.is_active = true) (hq : st.out_queue = some q)
    (hfull : q.length = 5) :
    send_video_frame c st f = (st, []) ∧ send_audio_data st a = (st, []) := by
  constructor
  · cases hb : b64decode f with
    | none => simp [send_video_frame, hs, ha, hb]
    | some bs =>
      cases hi : c.imdecode bs with
      | none => simp [send_video_frame, hs, ha, hb, hi]
      | some img =>
        simp [send_video_frame, enqueueOut, hs, ha, hb, hi, hq, putNowait,
          OUT_QUEUE_MAXSIZE, hfull]
  · cases hb : b64decode a with
    | none => simp [send_audio_data, hs, ha, hb]
    | some bs =>
      simp [send_audio_data, enqueueOut, hs, ha, hb, hq, putNowait,
        OUT_QUEUE_MAXSIZE, hfull]

/-- Witness for `queue_full_drops_silently` on a concrete full queue. -/
theorem queue_full_drops_silently_witness :
    send_video_frame ⟨fun _ => none, fun _ _ _ => [], fun _ => []⟩
      ⟨some 0, true, some (List.replicate 5 ⟨"audio/pcm", .bytes [0]⟩), []⟩ "AAAA" =
      (⟨some 0, true, some (List.replicate 5 ⟨"audio/pcm", .bytes [0]⟩), []⟩, []) ∧
    send_audio_data
      ⟨some 0, true, some (List.replicate 5 ⟨"audio/pcm", .bytes [0]⟩), []⟩ "AAAA" =
      (⟨some 0, true, some (List.replicate 5 ⟨"audio/pcm", .bytes [0]⟩), []⟩, []) :=
  queue_full_drops_silently ⟨fun _ => none, fun _ _ _ => [], fun _ => []⟩
    ⟨some 0, true, some (List.replicate 5 ⟨"audio/pcm", .bytes [0]⟩), []⟩
    "AAAA" "AAAA" 0 (List.replicate 5 ⟨"audio/pcm", .bytes [0]⟩)
    rfl rfl rfl (by decide)

/-- C9: a WebSocket text message that is not valid JSON draws exactly the
reply `{"type": "error", "message": "Invalid JSON format"}`, triggers no
wrapper/SDK call, and the receive loop continues, so any following messages
are processed exactly as they would be on their own. -/
theorem invalid_json_replies_error (rest : List ParsedWS) :
    handleMessage ParsedWS.invalid =
      ⟨[], [ServerMsg.error "Invalid JSON format"], true⟩ ∧
    runMessages (ParsedWS.invalid :: rest) =
      ((runMessages rest).1,
        ServerMsg.error "Invalid JSON format" :: (runMessages rest).2) := by
  refine ⟨rfl, ?_⟩
  simp [runMessages, handleMessage]

/-- Witness for `invalid_json_replies_error` with one following ping. -/
theorem invalid_json_replies_error_witness :
    handleMessage ParsedWS.invalid =
      ⟨[], [ServerMsg.error "Invalid JSON format"], true⟩ ∧
    runMessages [ParsedWS.invalid, ParsedWS.obj ⟨some "ping", none, none, none⟩] =
      ((runMessages [ParsedWS.obj ⟨some "ping", none, none, none⟩]).1,
        ServerMsg.error "Invalid JSON format" ::
          (runMessages [ParsedWS.obj ⟨some "ping", none, none, none⟩]).2) :=
  invalid_json_replies_error [ParsedWS.obj ⟨some "ping", none, none, none⟩]

/-- C2: the dispatcher maps the fixed set of type tags to the corresponding
wrapper calls — `video_frame` to `send_video_frame` on the data field,
`audio_data` to `send_audio_data` on the data field, `text_message` to
`send_text` on the text field, `ping` to a pong reply — and any other type
tag produces no call and no reply; the loop always continues. -/
theorem dispatcher_maps_type_tags (m : JsonMsg) :
    (∀ d, m.type = some "video_frame" → m.data = some d →
      handleMessage (ParsedWS.obj m) = ⟨[WrapperCall.video_frame d], [], true⟩) ∧
    (∀ d, m.type = some "audio_data" → m.data = some d →
      handleMessage (ParsedWS.obj m) = ⟨[WrapperCall.audio_data d], [], true⟩) ∧
    (∀ t, m.type = some "text_message" → m.text = some t →
      handleMessage (ParsedWS.obj m) = ⟨[WrapperCall.text_message t], [], true⟩) ∧
    (m.type = some "ping" →
      handleMessage (ParsedWS.obj m) = ⟨[], [ServerMsg.pong m.timestamp], true⟩) ∧
    (∀ t, m.type = some t → t ≠ "video_frame" → t ≠ "audio_data" →
      t ≠ "text_message" → t ≠ "ping" →
      handleMessage (ParsedWS.obj m) = ⟨[], [], true⟩) := by
  refine ⟨?_, ?_, ?_, ?_, ?_⟩
  · intro d hty hd; simp [handleMessage, hty, hd]
  · intro d hty hd; simp [handleMessage, hty, hd]
  · intro t hty ht; simp [handleMessage, hty, ht]
  · intro hty; simp [handleMessage, hty]
  · intro t hty h1 h2 h3 h4; simp [handleMessage, hty, h1, h2, h3, h4]

/-- Witness for `dispatcher_maps_type_tags` on a concrete ping message. -/
theorem dispatcher_maps_type_tags_witness :
    handleMessage (ParsedWS.obj ⟨some "ping", none, none, some "123"⟩) =
      ⟨[], [ServerMsg.pong (some "123")], true⟩ :=
  (dispatcher_maps_type_tags ⟨some "ping", none, none, some "123"⟩).2.2.2.1 rfl

/-- C4 (counterexample): on an exception whose text marks a disconnect, both
loops' handlers merely clear `is_active` and break out, performing no effect
at all — in particular no reconnection of the live session takes place,
contrary to the claim that the wrapper re-establishes the session. -/
theorem disconnect_does_not_reconnect :
    isDisconnectError "ConnectionClosed" = true ∧
    listenExcHandler true (LoopExc.sdkError "ConnectionClosed") =
      ⟨false, true, []⟩ ∧
    sendExcHandler true (LoopExc.sdkError "ConnectionClosed") =
      ⟨false, true, []⟩ := by
  decide

/-- C4 (amended): a disconnect-flavoured SDK exception makes either loop
clear `is_active` and exit with no further effect (no reconnection), while
any other SDK exception leaves `is_active` alone, sleeps briefly (1 s in the
response loop, 0.1 s in the send loop) and retries the loop. -/
theorem loop_exception_handling (active : Bool) (m : String) :
    (isDisconnectError m = true →
      listenExcHandler active (LoopExc.sdkError m) = ⟨false, true, []⟩ ∧
      sendExcHandler active (LoopExc.sdkError m) = ⟨false, true, []⟩) ∧
    (isDisconnectError m = false →
      listenExcHandler active (LoopExc.sdkError m) =
        ⟨active, false, [Effect.sleepMs 1000]⟩ ∧
      sendExcHandler active (LoopExc.sdkError m) =
        ⟨active, false, [Effect.sleepMs 100]⟩) := by
  constructor <;> intro h <;> simp [listenExcHandler, sendExcHandler, h]

/-- Witness for `loop_exception_handling` on a concrete disconnect text. -/
theorem loop_exception_handling_witness :
    listenExcHandler true (LoopExc.sdkError "ConnectionClosed") =
      ⟨false, true, []⟩ ∧
    sendExcHandler true (LoopExc.sdkError "ConnectionClosed") =
      ⟨false, true, []⟩ :=
  (loop_exception_handling true "ConnectionClosed").1 (by decide)

/-- C3: the response listener enqueues exactly the extracted data of each
SDK response (when nonempty), the response handler relays each dequeued item
as a message of type `response` carrying it, and the extracted data holds
the response's text, base64-encoded audio, and transcriptions. -/
theorem responses_relayed (st st' : ChatState) (r : SDKResponse) (d : RespData)
    (rest : List RespData) :
    (st.is_active = true → (extractResponse r).nonempty = true →
      listenPut st r =
        { st with response_queue := st.response_queue ++ [extractResponse r] }) ∧
    (st'.is_active = true → st'.response_queue = d :: rest →
      handleResponseOnce st' =
        some (ServerMsg.response d, { st' with response_queue := rest })) ∧
    (extractResponse r).text = truthyStr r.text ∧
    (extractResponse r).audio = (truthyBytes r.data).map b64encode ∧
    (extractResponse r).transcription = truthyStr r.output_transcription ∧
    (extractResponse r).user_transcription = truthyStr r.input_transcription := by
  refine ⟨?_, ?_, rfl, rfl, rfl, rfl⟩
  · intro ha hne; simp [listenPut, ha, hne]
  · intro ha hq; simp [handleResponseOnce, getResponseOnce, ha, hq]

/-- Witness for `responses_relayed`: a text response flows through the queue
and is relayed with type `response`. -/
theorem responses_relayed_witness :
    listenPut ⟨some 0, true, some [], []⟩ ⟨some "hi", none, none, none⟩ =
      ⟨some 0, true, some [],
        [] ++ [extractResponse ⟨some "hi", none, none, none⟩]⟩ ∧
    handleResponseOnce
        ⟨some 0, true, some [], [extractResponse ⟨some "hi", none, none, none⟩]⟩ =
      some (ServerMsg.response (extractResponse ⟨some "hi", none, none, none⟩),
        ⟨some 0, true, some [], []⟩) :=
  ⟨(responses_relayed ⟨some 0, true, some [], []⟩ initState
      ⟨some "hi", none, none, none⟩ ⟨none, none, none, none⟩ []).1 rfl (by decide),
   (responses_relayed initState
      ⟨some 0, true, some [], [extractResponse ⟨some "hi", none, none, none⟩]⟩
      ⟨some "hi", none, none, none⟩
      (extractResponse ⟨some "hi", none, none, none⟩) []).2.1 rfl rfl⟩

/-! Association-list lemmas for the connection map. -/

theorem connLookup_append (d e : ConnMap) (k : String) :
    connLookup (d ++ e) k =
      match connLookup d k with
      | some v => some v
      | none => connLookup e k := by
  induction d with
  | nil => simp [connLookup]
  | cons p rest ih =>
    by_cases h : p.1 = k
    · simp [connLookup, h]
    · simp [connLookup, h, ih]

theorem connLookup_connDel_self (d : ConnMap) (k : String) :
    connLookup (connDel d k) k = none := by
  induction d with
  | nil => simp [connDel, connLookup]
  | cons p rest ih =>
    by_cases h : p.1 = k
    · simpa [connDel, h] using ih
    · simpa [connDel, connLookup, h] using ih

theorem connLookup_connDel_ne (d : ConnMap) (k k' : String) (h : k' ≠ k) :
    connLookup (connDel d k) k' = connLookup d k' := by
  induction d with
  | nil => simp [connDel]
  | cons p rest ih =>
    by_cases hp : p.1 = k
    · have hkk' : ¬ k = k' := fun hc => h hc.symm
      simp [connDel, connLookup, hp, hkk', ih]
    · by_cases hp' : p.1 = k'
      · simp [connDel, connLookup, hp, hp', h]
      · simp [connDel, connLookup, hp, hp', ih]

/-- C6: while the handler for a client runs, `active_connections` maps the
client id to exactly its WebSocket and its `GeminiVideoChat` instance; after
the handler terminates (via the `finally` block) the entry is gone, and no
other client's entry is disturbed. -/
theorem connection_bookkeeping (conns : ConnMap) (client_id k : String)
    (ws gc : Nat) :
    connLookup (websocketEndpointMaps conns client_id ws gc).1 client_id =
      some ⟨ws, gc⟩ ∧
    connLookup (websocketEndpointMaps conns client_id ws gc).2 client_id = none ∧
    (k ≠ client_id →
      connLookup (websocketEndpointMaps conns client_id ws gc).2 k =
        connLookup conns k) := by
  have hdur : connLookup (connSet conns client_id ⟨ws, gc⟩) client_id =
      some ⟨ws, gc⟩ := by
    rw [connSet, connLookup_append, connLookup_connDel_self]
    simp [connLookup]
  refine ⟨hdur, ?_, ?_⟩
  · simp only [websocketEndpointMaps, hdur, Option.isSome_some, if_pos]
    exact connLookup_connDel_self _ _
  · intro hk
    simp only [websocketEndpointMaps, hdur, Option.isSome_some, if_pos]
    rw [connLookup_connDel_ne _ _ _ hk, connSet, connLookup_append,
      connLookup_connDel_ne _ _ _ hk]
    cases hc : connLookup conns k with
    | some v => rfl
    | none =>
      have hck : ¬ client_id = k := fun hc' => hk hc'.symm
      simp [connLookup, hck]

/-- Witness for `connection_bookkeeping` with two distinct client ids. -/
theorem connection_bookkeeping_witness :
    connLookup (websocketEndpointMaps [("b", ⟨7, 8⟩)] "a" 1 2).1 "a" =
      some ⟨1, 2⟩ ∧
    connLookup (websocketEndpointMaps [("b", ⟨7, 8⟩)] "a" 1 2).2 "a" = none ∧
    ("b" ≠ "a" →
      connLookup (websocketEndpointMaps [("b", ⟨7, 8⟩)] "a" 1 2).2 "b" =
        connLookup [("b", ⟨7, 8⟩)] "b") :=
  connection_bookkeeping [("b", ⟨7, 8⟩)] "a" "b" 1 2

/-- C7: while the session stays active, the sender loop dequeues one item
per iteration and forwards the queued media messages to the SDK session in
exactly the order they were enqueued, draining the queue. -/
theorem send_loop_fifo (st : ChatState) (q : List OutMsg) (n : Nat)
    (ha : st.is_active = true) (hs : st.session.isSome = true)
    (hq : st.out_queue = some q) (hn : q.length ≤ n) :
    (sendRealtimeIter n st).2 = q.map (fun m => Effect.sessionSendMedia m) ∧
    (sendRealtimeIter n st).1 = { st with out_queue := some [] } := by
  induction n generalizing st q with
  | zero =>
    have hq0 : q = [] := List.length_eq_zero.mp (Nat.le_zero.mp hn)
    subst hq0
    refine ⟨rfl, ?_⟩
    cases st with
    | mk s a o r => simp at hq; simp [sendRealtimeIter, hq]
  | succ n ih =>
    cases q with
    | nil =>
      have hstep : sendRealtimeStep st = (st, []) := by
        simp [sendRealtimeStep, ha, hs, hq]
      have := ih st [] ha hs hq (Nat.zero_le n)
      simp [sendRealtimeIter, hstep, this.1, this.2]
    | cons m restq =>
      have hstep : sendRealtimeStep st =
          ({ st with out_queue := some restq }, [Effect.sessionSendMedia m]) := by
        simp [sendRealtimeStep, ha, hs, hq]
      have := ih { st with out_queue := some restq } restq ha hs rfl
        (by simpa using hn)
      refine ⟨?_, ?_⟩
      · simp [sendRealtimeIter, hstep, this.1]
      · simp [sendRealtimeIter, hstep, this.2]

/-- Witness for `send_loop_fifo`: two queued items go out in order. -/
theorem send_loop_fifo_witness :
    (sendRealtimeIter 2
        ⟨some 0, true, some [⟨"image/jpeg", .str "f"⟩, ⟨"audio/pcm", .bytes [1]⟩],
          []⟩).2 =
      [⟨"image/jpeg", .str "f"⟩, ⟨"audio/pcm", .bytes [1]⟩].map
        (fun m => Effect.sessionSendMedia m) ∧
    (sendRealtimeIter 2
        ⟨some 0, true, some [⟨"image/jpeg", .str "f"⟩, ⟨"audio/pcm", .bytes [1]⟩],
          []⟩).1 =
      ⟨some 0, true, some [], []⟩ :=
  send_loop_fifo
    ⟨some 0, true, some [⟨"image/jpeg", .str "f"⟩, ⟨"audio/pcm", .bytes [1]⟩], []⟩
    [⟨"image/jpeg", .str "f"⟩, ⟨"audio/pcm", .bytes [1]⟩] 2 rfl rfl rfl
    (by decide)

/-! Arithmetic facts about the thumbnail size computation. -/

theorem ceilDiv_le (a b k : Nat) (hb : 0 < b) (h : a ≤ k * b) :
    (a + b - 1) / b ≤ k := by
  have he : (k + 1) * b = k * b + b := by ring
  have hlt : a + b - 1 < (k + 1) * b := by rw [he]; omega
  exact Nat.lt_succ_iff.mp ((Nat.div_lt_iff_lt_mul hb).mpr hlt)

theorem roundAspect_le (a b k : Nat) (key : Nat → Nat) (hb : 0 < b)
    (hk : 1 ≤ k) (h : a ≤ k * b) : roundAspect a b key ≤ k := by
  have h1 : a / b * b ≤ k * b := le_trans (Nat.div_mul_le_self a b) h
  have hf : a / b ≤ k := Nat.le_of_mul_le_mul_right h1 hb
  have hc : (a + b - 1) / b ≤ k := ceilDiv_le a b k hb h
  unfold roundAspect
  exact max_le (by split <;> assumption) hk

theorem thumbnailDims_le_1024 (w h : Nat) (hw : 1 ≤ w) (hh : 1 ≤ h) :
    (thumbnailDims w h).1 ≤ 1024 ∧ (thumbnailDims w h).2 ≤ 1024 := by
  unfold thumbnailDims
  by_cases h1 : w ≤ 1024 ∧ h ≤ 1024
  · rw [if_pos h1]; exact h1
  · rw [if_neg h1]
    by_cases h2 : w ≤ h
    · rw [if_pos h2]
      constructor
      · show roundAspect (1024 * w) h
            (fun n => ((1024 * w : Int) - n * h).natAbs) ≤ 1024
        exact roundAspect_le _ _ _ _ (by omega) (by omega)
          (Nat.mul_le_mul (le_refl 1024) h2)
      · show (1024 : Nat) ≤ 1024
        exact le_refl 1024
    · rw [if_neg h2]
      constructor
      · show (1024 : Nat) ≤ 1024
        exact le_refl 1024
      · show roundAspect (1024 * h) w
            (fun n => if n = 0 then 0 else ((w * n : Int) - 1024 * h).natAbs) ≤ 1024
        exact roundAspect_le _ _ _ _ (by omega) (by omega)
          (Nat.mul_le_mul (le_refl 1024) (by omega))

theorem pilThumbnail_dims (c : ImageCodec) (img : Image) :
    (pilThumbnail c img).width = (thumbnailDims img.width img.height).1 ∧
    (pilThumbnail c img).height = (thumbnailDims img.width img.height).2 := by
  simp only [pilThumbnail, pilResize]
  by_cases hcase : (thumbnailDims img.width img.height).1 = img.width ∧
      (thumbnailDims img.width img.height).2 = img.height
  · rw [if_pos hcase]; exact ⟨hcase.1.symm, hcase.2.symm⟩
  · rw [if_neg hcase]; exact ⟨rfl, rfl⟩

/-- C5: an accepted base64 JPEG frame that decodes to a valid image is
preprocessed before queuing: decoded, converted BGR→RGB, thumbnailed so
that neither dimension exceeds 1024, JPEG re-encoded, and enqueued as
`{"mime_type": "image/jpeg", "data": <base64>}`. -/
theorem video_frame_preprocessing (c : ImageCodec) (st : ChatState)
    (frame_data : String) (sid : Nat) (bs : List Nat) (img : Image)
    (q : List OutMsg) (hs : st.session = some sid) (ha : st.is_active = true)
    (hq : st.out_queue = some q) (hroom : q.length < 5)
    (hdec : b64decode frame_data = some bs) (himg : c.imdecode bs = some img)
    (hw : 1 ≤ img.width) (hh : 1 ≤ img.height) :
    (pilThumbnail c (cvtColorBGR2RGB img)).width ≤ 1024 ∧
    (pilThumbnail c (cvtColorBGR2RGB img)).height ≤ 1024 ∧
    send_video_frame c st frame_data =
      ({ st with out_queue := some (q ++
          [⟨"image/jpeg", MsgData.str (b64encode
            (c.jpegEncode (pilThumbnail c (cvtColorBGR2RGB img))))⟩]) }, []) := by
  have hdims := pilThumbnail_dims c (cvtColorBGR2RGB img)
  have hbnd := thumbnailDims_le_1024 img.width img.height hw hh
  have hcw : (cvtColorBGR2RGB img).width = img.width := rfl
  have hch : (cvtColorBGR2RGB img).height = img.height := rfl
  refine ⟨?_, ?_, ?_⟩
  · rw [hdims.1, hcw, hch]; exact hbnd.1
  · rw [hdims.2, hcw, hch]; exact hbnd.2
  · simp [send_video_frame, enqueueOut, hs, ha, hdec, himg, hq, putNowait,
      OUT_QUEUE_MAXSIZE, hroom]

/-- Witness for `video_frame_preprocessing`: a 2048×1024 decoded frame is
thumbnailed to 1024×512 and queued. -/
theorem video_frame_preprocessing_witness :
    (pilThumbnail ⟨fun _ => some ⟨2048, 1024, []⟩, fun _ _ _ => [], fun _ => []⟩
      (cvtColorBGR2RGB ⟨2048, 1024, []⟩)).width ≤ 1024 ∧
    (pilThumbnail ⟨fun _ => some ⟨2048, 1024, []⟩, fun _ _ _ => [], fun _ => []⟩
      (cvtColorBGR2RGB ⟨2048, 1024, []⟩)).height ≤ 1024 ∧
    send_video_frame ⟨fun _ => some ⟨2048, 1024, []⟩, fun _ _ _ => [], fun _ => []⟩
      ⟨some 0, true, some [], []⟩ "AAAA" =
      (⟨some 0, true, some ([] ++
        [⟨"image/jpeg", MsgData.str (b64encode
          ((⟨fun _ => some ⟨2048, 1024, []⟩, fun _ _ _ => [],
            fun _ => []⟩ : ImageCodec).jpegEncode
            (pilThumbnail
              ⟨fun _ => some ⟨2048, 1024, []⟩, fun _ _ _ => [], fun _ => []⟩
              (cvtColorBGR2RGB ⟨2048, 1024, []⟩))))⟩]), []⟩, []) :=
  video_frame_preprocessing
    ⟨fun _ => some ⟨2048, 1024, []⟩, fun _ _ _ => [], fun _ => []⟩
    ⟨some 0, true, some [], []⟩ "AAAA" 0 [0, 0, 0] ⟨2048, 1024, []⟩ []
    rfl rfl rfl (by decide) (by decide) rfl (by decide) (by decide)

/-! Preservation of the outbound-queue bound by every transition. -/

theorem putNowait_length (q : List OutMsg) (m : OutMsg) (q' : List OutMsg)
    (h : putNowait q m = some q') : q'.length ≤ 5 := by
  unfold putNowait OUT_QUEUE_MAXSIZE at h
  split at h
  · next hlt =>
    injection h with h'
    subst h'
    simp only [List.length_append, List.length_singleton]
    omega
  · simp at h

theorem outLen_eq_of_out_queue {s s' : ChatState}
    (h : s'.out_queue = s.out_queue) : outLen s' = outLen s := by
  unfold outLen; rw [h]

theorem enqueueOut_outLen (st : ChatState) (m : OutMsg) (h : outLen st ≤ 5) :
    outLen (enqueueOut st m) ≤ 5 := by
  cases ho : st.out_queue with
  | none => simpa [enqueueOut, ho] using h
  | some q =>
    cases hp : putNowait q m with
    | none => simpa [enqueueOut, ho, hp] using h
    | some q' =>
      have hl := putNowait_length q m q' hp
      simpa [enqueueOut, ho, hp, outLen] using hl

theorem send_video_frame_outLen (c : ImageCodec) (st : ChatState) (f : String)
    (h : outLen st ≤ 5) : outLen (send_video_frame c st f).1 ≤ 5 := by
  cases hg : st.session with
  | none => simpa [send_video_frame, hg] using h
  | some sid =>
    cases ha : st.is_active with
    | false => simpa [send_video_frame, hg, ha] using h
    | true =>
      cases hb : b64decode f with
      | none => simpa [send_video_frame, hg, ha, hb] using h
      | some bs =>
        cases hi : c.imdecode bs with
        | none => simpa [send_video_frame, hg, ha, hb, hi] using h
        | some img =>
          have he := enqueueOut_outLen st ⟨"image/jpeg",
            .str (b64encode (c.jpegEncode (pilThumbnail c (cvtColorBGR2RGB img))))⟩ h
          simpa [send_video_frame, hg, ha, hb, hi] using he

theorem send_audio_data_outLen (st : ChatState) (a : String)
    (h : outLen st ≤ 5) : outLen (send_audio_data st a).1 ≤ 5 := by
  cases hg : st.session with
  | none => simpa [send_audio_data, hg] using h
  | some sid =>
    cases ha : st.is_active with
    | false => simpa [send_audio_data, hg, ha] using h
    | true =>
      cases hb : b64decode a with
      | none => simpa [send_audio_data, hg, ha, hb] using h
      | some bs =>
        have he := enqueueOut_outLen st ⟨"audio/pcm", .bytes bs⟩ h
        simpa [send_audio_data, hg, ha, hb] using he

theorem send_text_fst (st : ChatState) (t : String) :
    (send_text st t).1 = st := by
  unfold send_text; split <;> rfl

theorem listenPut_out_queue (st : ChatState) (r : SDKResponse) :
    (listenPut st r).out_queue = st.out_queue := by
  simp only [listenPut]
  split
  · split <;> rfl
  · rfl

theorem sendRealtimeStep_outLen (st : ChatState) (h : outLen st ≤ 5) :
    outLen (sendRealtimeStep st).1 ≤ 5 := by
  by_cases hg : st.is_active ∧ st.session.isSome
  · cases ho : st.out_queue with
    | none => simpa [sendRealtimeStep, hg, ho] using h
    | some q =>
      cases q with
      | nil => simpa [sendRealtimeStep, hg, ho] using h
      | cons m rest =>
        have hlen : outLen st = rest.length + 1 := by simp [outLen, ho]
        have hred : outLen (sendRealtimeStep st).1 = rest.length := by
          simp [sendRealtimeStep, hg, ho, outLen]
        omega
  · simpa [sendRealtimeStep, hg] using h

theorem step_preserves_outLen {s s' : ChatState} (hs : Step s s')
    (h : outLen s ≤ 5) : outLen s' ≤ 5 := by
  cases hs with
  | start st sid => exact Nat.zero_le 5
  | video c st f => exact send_video_frame_outLen c s f h
  | audio st a => exact send_audio_data_outLen s a h
  | text st t => rw [send_text_fst]; exact h
  | listen st r => rw [outLen_eq_of_out_queue (listenPut_out_queue s r)]; exact h
  | respGet st st' d heq =>
    unfold getResponseOnce at heq
    split at heq
    · split at heq
      · simp at heq
      · rw [Option.some_inj, Prod.mk.injEq] at heq
        obtain ⟨-, h2⟩ := heq
        subst h2
        exact h
    · simp at heq
  | sendStep st => exact sendRealtimeStep_outLen s h
  | loopExc st o e ho => exact h
  | cleanup st =>
    cases hcq : s.out_queue with
    | none => simp [outLen, hcq]
    | some q => simp [outLen, hcq]

/-- C1 (amended): in every reachable state the outbound queue is bounded —
it holds at most 5 items (`asyncio.Queue(maxsize=5)`); the inbound response
queue, created in `__init__` as `asyncio.Queue()` with no maxsize, carries
no such bound (see `response_queue_unbounded`). -/
theorem out_queue_bounded (st : ChatState) (h : Reachable st) :
    outLen st ≤ 5 := by
  induction h with
  | init => exact Nat.zero_le 5
  | step hr hstep ih =>
    exact step_preserves_outLen hstep ih

/-- Witness for `out_queue_bounded` at the initial state. -/
theorem out_queue_bounded_witness : outLen initState ≤ 5 :=
  out_queue_bounded initState Reachable.init

/-! A family of reachable states whose response queue is arbitrarily long. -/

def pumpedResponse : SDKResponse := ⟨some "hi", none, none, none⟩

def pumpedState (n : Nat) : ChatState :=
  { session := some 0, is_active := true, out_queue := some [],
    response_queue := List.replicate n (extractResponse pumpedResponse) }

theorem reachable_pumpedState (n : Nat) : Reachable (pumpedState n) := by
  induction n with
  | zero =>
    have he : (start_session initState 0).1 = pumpedState 0 := rfl
    exact he ▸ Reachable.step Reachable.init (Step.start initState 0)
  | succ n ih =>
    have hne : (extractResponse pumpedResponse).nonempty = true := by decide
    have he : listenPut (pumpedState n) pumpedResponse = pumpedState (n + 1) := by
      simp [listenPut, pumpedState, hne, List.replicate_succ']
    exact he ▸ Reachable.step ih (Step.listen (pumpedState n) pumpedResponse)

/-- C1 (counterexample): the inbound response queue is not bounded.  A
reachable state holds 6 queued responses (already beyond the only capacity
in the code), and no finite capacity bounds the response queue over all
reachable states, refuting the claim that both queues are bounded. -/
theorem response_queue_unbounded :
    Reachable (pumpedState 6) ∧ (pumpedState 6).response_queue.length = 6 ∧
    ¬ ∃ N : Nat, ∀ st : ChatState, Reachable st → st.response_queue.length ≤ N := by
  refine ⟨reachable_pumpedState 6, by simp [pumpedState], ?_⟩
  rintro ⟨N, hN⟩
  have h := hN (pumpedState (N + 1)) (reachable_pumpedState (N + 1))
  simp [pumpedState] at h

end VideoChat
